import Mathlib

/-!
A shallow embedding of the value-numbering core in
`src/llvm-gcc-4.0-iphone/gcc/tree-vn.c`, together with proofs of its
specified properties.

Modelling conventions:
* A GCC `tree` node is a `VN.Tree`: a node-instance identifier `nid`
  standing for the node's address (two `Tree` values denote the same C
  object exactly when they are equal, and distinct objects carry distinct
  `nid`s), the `TREE_CODE` as a numeric `code`, the `TREE_TYPE` as a
  numeric type identifier `ty`, a `data` payload (the value of a constant,
  the `VALUE_HANDLE_ID` of a value handle), a flag `stmtAnn` recording
  whether the node currently carries a statement annotation
  (`ann->common.type == STMT_ANN`), and the operand list `ops`.
* `hashval_t` is a natural number reduced modulo 2^32 at each mixing step.
* A fatal path (a `gcc_assert` failure, `gcc_unreachable`, or a
  dereference of the NULL `value_table`) is `none`; a normal return is
  `some`.  `NULL_TREE` results are the inner `Option`.
* The mutable globals of the file (`value_table`, the per-node value
  annotations written by `set_value_handle`, and the static `id` counter
  of `make_value_handle`) form the explicit state `VN.VNState`.  The id
  counter is a 32-bit unsigned int: reads and the increment are reduced
  modulo 2^32, so it wraps after 2^32 handle creations.
* The language hook `lang_hooks.types_compatible_p` is an external oracle
  and is passed everywhere as a parameter `compat`.
-/

namespace VN

/-- The class of a tree node, as distinguished by the predicates the
source uses: `is_gimple_min_invariant`, `TREE_CODE (e) == SSA_NAME`,
`DECL_P`, `EXPR_P`, and the `VALUE_HANDLE` code itself. -/
inductive NodeClass where
  | Constant
  | SSAName
  | Declaration
  | ValueHandleNode
  | Expression
  | Other
deriving DecidableEq

/-- A GCC `tree` node (see the modelling conventions above). -/
inductive Tree where
  | mk (nid : Nat) (code : Nat) (ty : Nat) (data : Nat) (stmtAnn : Bool) (ops : List Tree)

/-- Node-instance identifier (the node's address). -/
def Tree.nid : Tree → Nat
  | .mk n _ _ _ _ _ => n

/-- The node's `TREE_CODE`. -/
def Tree.code : Tree → Nat
  | .mk _ c _ _ _ _ => c

/-- The node's `TREE_TYPE`, as an opaque type identifier. -/
def Tree.ty : Tree → Nat
  | .mk _ _ t _ _ _ => t

/-- Payload: the value of a constant, or the `VALUE_HANDLE_ID` of a
value handle. -/
def Tree.data : Tree → Nat
  | .mk _ _ _ d _ _ => d

/-- Whether the node currently carries a statement annotation. -/
def Tree.stmtAnn : Tree → Bool
  | .mk _ _ _ _ a _ => a

/-- The node's operand list. -/
def Tree.ops : Tree → List Tree
  | .mk _ _ _ _ _ o => o

mutual
/-- Boolean equality of trees (used to decide equality of `Tree`). -/
def beqT : Tree → Tree → Bool
  | .mk n1 c1 t1 d1 s1 o1, .mk n2 c2 t2 d2 s2 o2 =>
    n1 == n2 && c1 == c2 && t1 == t2 && d1 == d2 && s1 == s2 && beqL o1 o2
/-- Boolean equality of tree lists. -/
def beqL : List Tree → List Tree → Bool
  | [], [] => true
  | a :: as, b :: bs => beqT a b && beqL as bs
  | _, _ => false
end

mutual
theorem beqT_iff : ∀ a b : Tree, beqT a b = true ↔ a = b
  | .mk n1 c1 t1 d1 s1 o1, .mk n2 c2 t2 d2 s2 o2 => by
    simp only [beqT, Bool.and_eq_true, beq_iff_eq, Tree.mk.injEq]
    rw [beqL_iff o1 o2]
    tauto
theorem beqL_iff : ∀ as bs : List Tree, beqL as bs = true ↔ as = bs
  | [], [] => by simp [beqL]
  | a :: as, b :: bs => by
    simp only [beqL, Bool.and_eq_true, List.cons.injEq]
    rw [beqT_iff a b, beqL_iff as bs]
  | [], _ :: _ => by simp [beqL]
  | _ :: _, [] => by simp [beqL]
end

instance : DecidableEq Tree := fun a b => decidable_of_iff _ (beqT_iff a b)

/-- The `TREE_CODE` reserved for `VALUE_HANDLE` nodes. -/
def VALUE_HANDLE : Nat := 4

/-- Classify a `TREE_CODE`.  The concrete numbering is a modelling
choice; what matters is that the class is a function of the code, as in
GCC where `is_gimple_min_invariant`, `SSA_NAME`, `DECL_P` and `EXPR_P`
are all decided by the code alone.  Codes 0 and 1 are constant codes
(e.g. `INTEGER_CST`, `REAL_CST`), 2 is `SSA_NAME`, 3 is a declaration
code, 4 is `VALUE_HANDLE`, codes from 10 on are expression codes, and
the rest are other (exceptional) codes. -/
def classOf (code : Nat) : NodeClass :=
  if code ≤ 1 then .Constant
  else if code = 2 then .SSAName
  else if code = 3 then .Declaration
  else if code = 4 then .ValueHandleNode
  else if code < 10 then .Other
  else .Expression

/-- Modelled from the spec: `is_gimple_min_invariant` (defined in
`tree-gimple.c`, outside this repository) recognises the
minimal-invariant (constant) expressions, the ones that are their own
value handles. -/
def is_gimple_min_invariant (e : Tree) : Bool :=
  classOf e.code == .Constant

/-- The source's `EXPR_P` predicate: the node is an expression node. -/
def EXPR_P (e : Tree) : Bool :=
  classOf e.code == .Expression

/-- The source's `DECL_P` predicate: the node is a declaration node. -/
def DECL_P (e : Tree) : Bool :=
  classOf e.code == .Declaration

/-- One step of 32-bit hash mixing, folding one datum into a seed. -/
def hmix (a seed : Nat) : Nat :=
  (seed * 65599 + a) % 4294967296

mutual
/-- Modelled from the spec: `iterative_hash_expr` (defined in `tree.c`,
outside this repository) combines the operation kind of the expression
and then, recursively and in operand order, the hash contributions of
each operand; constants contribute their value, while declarations,
SSA names and other leaves contribute their node identity. -/
def iterative_hash_expr : Tree → Nat → Nat
  | .mk nid code _ data _ ops, seed =>
    match classOf code with
    | .Constant => hmix data (hmix code seed)
    | .Expression => hash_operands ops (hmix code seed)
    | _ => hmix nid (hmix code seed)
/-- Fold `iterative_hash_expr` over a list of trees, threading the seed. -/
def hash_operands : List Tree → Nat → Nat
  | [], seed => seed
  | e :: rest, seed => hash_operands rest (iterative_hash_expr e seed)
end

mutual
/-- Modelled from the spec: `operand_equal_p (e1, e2, OEP_PURE_SAME)`
(defined in `fold-const.c`, outside this repository) is the pure,
side-effect-insensitive recursive structural comparison: identical
references are equal; otherwise the operation kinds must agree, constants
compare by value, expression nodes compare their operands pairwise and
recursively, and declarations, SSA names and other leaves are equal only
when they are the identical reference. -/
def operand_equal_p : Tree → Tree → Bool
  | e1@(.mk _ c1 _ d1 _ o1), e2@(.mk _ c2 _ d2 _ o2) =>
    if beqT e1 e2 then true
    else if c1 == c2 then
      match classOf c1 with
      | .Constant => d1 == d2
      | .Expression => operands_equal_p o1 o2
      | _ => false
    else false
/-- Pairwise `operand_equal_p` over operand lists of equal length. -/
def operands_equal_p : List Tree → List Tree → Bool
  | [], [] => true
  | a :: as, b :: bs => operand_equal_p a b && operands_equal_p as bs
  | _, _ => false
end

/-- Source `expressions_equal_p` (tree-vn.c:110): two expressions are
equal if identical, or if they have the same code, identical or
compatible types (per the language hook `compat`), and pure-equal
operands. -/
def expressions_equal_p (compat : Nat → Nat → Bool) (e1 e2 : Tree) : Bool :=
  if e1 = e2 then true
  else if e1.code == e2.code
          && (e1.ty == e2.ty || compat e1.ty e2.ty)
          && operand_equal_p e1 e2 then true
  else false

/-- Source `vn_compute` (tree-vn.c:85): asserts that `expr` is not a
statement (has no statement annotation), hashes `expr` starting from
`val`, then folds in the virtual use operands in order.  `none` models
the fatal `gcc_assert` failure. -/
def vn_compute (expr : Tree) (val : Nat) (vuses : List Tree) : Option Nat :=
  if expr.stmtAnn then none
  else some (hash_operands vuses (iterative_hash_expr expr val))

/-- Source `struct val_expr_pair_d` (tree-vn.c:43): a value handle, its
associated expression, the virtual uses of the expression, and the cached
hash code. -/
structure ValExprPair where
  v : Tree
  e : Tree
  vuses : List Tree
  hashcode : Nat
deriving DecidableEq

/-- The virtual-use comparison loop of `val_expr_pair_expr_eq`
(tree-vn.c:156): the two sequences must have equal length and
pairwise-equal (by `expressions_equal_p`) entries, in order. -/
def vuses_equal (compat : Nat → Nat → Bool) : List Tree → List Tree → Bool
  | [], [] => true
  | a :: as, b :: bs => expressions_equal_p compat a b && vuses_equal compat as bs
  | _, _ => false

/-- Source `val_expr_pair_expr_eq` (tree-vn.c:146): two table entries
represent the same expression when their expressions are equal and their
virtual-use sequences have equal length and pairwise-equal entries. -/
def val_expr_pair_expr_eq (compat : Nat → Nat → Bool) (p1 p2 : ValExprPair) : Bool :=
  expressions_equal_p compat p1.e p2.e && vuses_equal compat p1.vuses p2.vuses

/-- A hashtable probe matches a stored entry when the cached hash codes
agree and the equality callback `val_expr_pair_expr_eq` accepts the pair,
exactly as `htab_find_slot_with_hash` disambiguates a bucket.  Note that
the probe's `v` field is never consulted. -/
def htab_entry_matches (compat : Nat → Nat → Bool) (probe entry : ValExprPair) : Bool :=
  entry.hashcode == probe.hashcode && val_expr_pair_expr_eq compat entry probe

/-- Probing the table with `NO_INSERT`: the first entry matching the
probe, if any. -/
def htab_find (compat : Nat → Nat → Bool) (tbl : List ValExprPair)
    (probe : ValExprPair) : Option ValExprPair :=
  tbl.find? (htab_entry_matches compat probe)

/-- Probing the table with `INSERT` followed by the replace in
`vn_add` (tree-vn.c:199): the first entry matching the new pair's key is
freed and overwritten in place; when none matches, the new pair occupies
a fresh slot. -/
def htab_insert (compat : Nat → Nat → Bool) :
    List ValExprPair → ValExprPair → List ValExprPair
  | [], p => [p]
  | q :: rest, p =>
    if htab_entry_matches compat p q then p :: rest
    else q :: htab_insert compat rest p

/-- The mutable state of tree-vn.c: the global `value_table` (`none`
models the NULL pointer it holds outside an active session), the value
handles recorded on nodes by `set_value_handle` (keyed by node instance),
and the static `id` counter of `make_value_handle`. -/
structure VNState where
  value_table : Option (List ValExprPair)
  ann : List (Nat × Tree)
  nextId : Nat
deriving DecidableEq

/-- Read the value handle recorded on the node instance `nid`
(`SSA_NAME_VALUE` or `ann->common.value_handle`); `none` is `NULL_TREE`. -/
def ann_get (ann : List (Nat × Tree)) (nid : Nat) : Option Tree :=
  (ann.find? (fun p => p.1 == nid)).map Prod.snd

/-- Record the value handle `v` on the node instance `nid`. -/
def ann_set (ann : List (Nat × Tree)) (nid : Nat) (v : Tree) : List (Nat × Tree) :=
  (nid, v) :: ann

/-- Source `make_value_handle` (tree-vn.c:63): build a `VALUE_HANDLE`
node of type `ty` carrying the next id from the static counter, and
advance the counter.  The counter is a 32-bit `static unsigned int`
(tree-vn.c:66), so the id read is the counter's current 32-bit value and
the post-increment wraps modulo 2^32: after 2^32 creations ids repeat.
The handle's address is modelled by the id itself, fresh within any
window of 2^32 creations. -/
def make_value_handle (ty : Nat) (s : VNState) : Tree × VNState :=
  (Tree.mk (s.nextId % 4294967296) VALUE_HANDLE ty (s.nextId % 4294967296) false [],
   { s with nextId := (s.nextId + 1) % 4294967296 })

/-- Source `set_value_handle` (tree-vn.c:170): record `v` on an SSA name
via `SSA_NAME_VALUE`, on an expression or declaration via its annotation;
for any other node it asserts `is_gimple_min_invariant` (constants are
their own value handles, nothing is recorded), and the assertion failure
is fatal (`none`). -/
def set_value_handle (e v : Tree) (s : VNState) : Option VNState :=
  if classOf e.code == .SSAName then
    some { s with ann := ann_set s.ann e.nid v }
  else if EXPR_P e || DECL_P e then
    some { s with ann := ann_set s.ann e.nid v }
  else if is_gimple_min_invariant e then some s
  else none

/-- Source `vn_add` (tree-vn.c:188): build a new pair with the computed
hash (the assert inside `vn_compute` may fire), find the slot in the
global table (a NULL table is fatal), replace any existing matching entry
wholesale, then record the handle on the node.  The trailing
`add_to_value` call updates the value sets of the surrounding PRE pass,
which are outside this core's state. -/
def vn_add (compat : Nat → Nat → Bool) (expr val : Tree) (vuses : List Tree)
    (s : VNState) : Option VNState :=
  match vn_compute expr 0 vuses, s.value_table with
  | some h, some tbl =>
    set_value_handle expr val
      { s with value_table := some (htab_insert compat tbl ⟨val, expr, vuses, h⟩) }
  | _, _ => none

/-- The NULL probe value: the `v` field of the stack-allocated probe in
`vn_lookup` is NULL and is never consulted by the hash or equality
callbacks. -/
def null_tree : Tree := Tree.mk 0 0 0 0 false []

/-- Source `vn_lookup` (tree-vn.c:215): constants are their own value;
otherwise compute the hash (the assert may fire), probe the global table
with `NO_INSERT` (a NULL table is fatal), and return the stored handle or
`NULL_TREE` (the inner `none`) when no slot matches. -/
def vn_lookup (compat : Nat → Nat → Bool) (expr : Tree) (vuses : List Tree)
    (s : VNState) : Option (Option Tree) :=
  if is_gimple_min_invariant expr then some (some expr)
  else
    match vn_compute expr 0 vuses, s.value_table with
    | some h, some tbl =>
      match htab_find compat tbl ⟨null_tree, expr, vuses, h⟩ with
      | none => some none
      | some q => some (some q.v)
    | _, _ => none

/-- Source `vn_lookup_or_add` (tree-vn.c:242): look the expression up;
on a miss create a fresh handle typed like `expr` and add the pair; in
either case record the handle on the node instance (unconditionally,
tree-vn.c:262) and return it.  The dump-file output is diagnostic only
and is not modelled. -/
def vn_lookup_or_add (compat : Nat → Nat → Bool) (expr : Tree)
    (vuses : List Tree) (s : VNState) : Option (Tree × VNState) :=
  match vn_lookup compat expr vuses s with
  | none => none
  | some (some v) =>
    match set_value_handle expr v s with
    | none => none
    | some s2 => some (v, s2)
  | some none =>
    match make_value_handle expr.ty s with
    | (v, s1) =>
      match vn_add compat expr v vuses s1 with
      | none => none
      | some s2 =>
        match set_value_handle expr v s2 with
        | none => none
        | some s3 => some (v, s3)

/-- Source `get_value_handle` (tree-vn.c:273): constants are their own
handle; SSA names answer from `SSA_NAME_VALUE`, expressions and
declarations from their annotation (NULL when never set); every other
node kind is `gcc_unreachable` (fatal, `none`). -/
def get_value_handle (expr : Tree) (s : VNState) : Option (Option Tree) :=
  if is_gimple_min_invariant expr then some (some expr)
  else if classOf expr.code == .SSAName then some (ann_get s.ann expr.nid)
  else if EXPR_P expr || DECL_P expr then some (ann_get s.ann expr.nid)
  else none

/-- Source `vn_init` (tree-vn.c:294): install a fresh empty table.  The
static id counter is not reset. -/
def vn_init (s : VNState) : VNState :=
  { s with value_table := some [] }

/-- Source `vn_delete` (tree-vn.c:304): free the table (freeing a NULL
table is fatal) and set the global pointer back to NULL. -/
def vn_delete (s : VNState) : Option VNState :=
  match s.value_table with
  | none => none
  | some _ => some { s with value_table := none }

/-- The state before any call: the global `value_table` is NULL, no node
carries a handle, the static counter is zero. -/
def initial_state : VNState := ⟨none, [], 0⟩

/-- One call of the public API, for reasoning about whole sessions. -/
inductive Op where
  | opInit
  | opDelete
  | opLookup (e : Tree) (vuses : List Tree)
  | opAdd (e v : Tree) (vuses : List Tree)
  | opLookupOrAdd (e : Tree) (vuses : List Tree)
  | opGetHandle (e : Tree)

/-- Run one public API call, keeping only the state (`none` when the call
is fatal). -/
def runOp (compat : Nat → Nat → Bool) : Op → VNState → Option VNState
  | .opInit, s => some (vn_init s)
  | .opDelete, s => vn_delete s
  | .opLookup e vuses, s => (vn_lookup compat e vuses s).map (fun _ => s)
  | .opAdd e v vuses, s => vn_add compat e v vuses s
  | .opLookupOrAdd e vuses, s => (vn_lookup_or_add compat e vuses s).map Prod.snd
  | .opGetHandle e, s => (get_value_handle e s).map (fun _ => s)

/-- Run a sequence of public API calls. -/
def runOps (compat : Nat → Nat → Bool) : List Op → VNState → Option VNState
  | [], s => some s
  | op :: rest, s =>
    match runOp compat op s with
    | none => none
    | some s1 => runOps compat rest s1

/-!
Proof infrastructure.  `skel` erases from a tree exactly the data that
`operand_equal_p` ignores (instance identity, types, annotations, and the
payload of expression nodes), so that the pure structural comparison
becomes equality of skeletons; symmetry, transitivity and
hash-congruence of the comparison then follow from properties of
equality.
-/

mutual
/-- The structural skeleton of a tree: what `operand_equal_p` compares. -/
def skel : Tree → Tree
  | .mk nid code ty data sa ops =>
    match classOf code with
    | .Constant => .mk 0 code 0 data false []
    | .Expression => .mk 0 code 0 0 false (skelList ops)
    | _ => .mk nid code ty data sa ops
/-- Skeletons of a list of trees. -/
def skelList : List Tree → List Tree
  | [] => []
  | e :: rest => skel e :: skelList rest
end

theorem skel_code : ∀ t : Tree, (skel t).code = t.code
  | .mk nid code ty data sa ops => by
    cases h : classOf code <;> simp [skel, h, Tree.code]

mutual
theorem operand_equal_p_iff_skel :
    ∀ a b : Tree, operand_equal_p a b = true ↔ skel a = skel b
  | .mk n1 c1 t1 d1 s1 o1, .mk n2 c2 t2 d2 s2 o2 => by
    by_cases hbeq : beqT (.mk n1 c1 t1 d1 s1 o1) (.mk n2 c2 t2 d2 s2 o2) = true
    · have heq := (beqT_iff _ _).mp hbeq
      constructor
      · intro _
        rw [heq]
      · intro _
        simp [operand_equal_p, hbeq]
    · have hne : (Tree.mk n1 c1 t1 d1 s1 o1) ≠ (Tree.mk n2 c2 t2 d2 s2 o2) := by
        intro h
        exact hbeq ((beqT_iff _ _).mpr h)
      by_cases hc : c1 = c2
      · subst hc
        cases hcls : classOf c1 with
        | Constant =>
          have hop : operand_equal_p (Tree.mk n1 c1 t1 d1 s1 o1)
              (Tree.mk n2 c1 t2 d2 s2 o2) = (d1 == d2) := by
            simp only [operand_equal_p, hcls]
            rw [if_neg hbeq]
            simp
          have hs1 : skel (Tree.mk n1 c1 t1 d1 s1 o1) = Tree.mk 0 c1 0 d1 false [] := by
            simp [skel, hcls]
          have hs2 : skel (Tree.mk n2 c1 t2 d2 s2 o2) = Tree.mk 0 c1 0 d2 false [] := by
            simp [skel, hcls]
          rw [hop, hs1, hs2]
          simp [Tree.mk.injEq]
        | Expression =>
          have hop : operand_equal_p (Tree.mk n1 c1 t1 d1 s1 o1)
              (Tree.mk n2 c1 t2 d2 s2 o2) = operands_equal_p o1 o2 := by
            simp only [operand_equal_p, hcls]
            rw [if_neg hbeq]
            simp
          have hs1 : skel (Tree.mk n1 c1 t1 d1 s1 o1) =
              Tree.mk 0 c1 0 0 false (skelList o1) := by
            simp [skel, hcls]
          have hs2 : skel (Tree.mk n2 c1 t2 d2 s2 o2) =
              Tree.mk 0 c1 0 0 false (skelList o2) := by
            simp [skel, hcls]
          rw [hop, hs1, hs2, operands_equal_p_iff_skel o1 o2]
          simp [Tree.mk.injEq]
        | SSAName =>
          have hop : operand_equal_p (Tree.mk n1 c1 t1 d1 s1 o1)
              (Tree.mk n2 c1 t2 d2 s2 o2) = false := by
            simp only [operand_equal_p, hcls]
            rw [if_neg hbeq]
            simp
          have hs1 : skel (Tree.mk n1 c1 t1 d1 s1 o1) = Tree.mk n1 c1 t1 d1 s1 o1 := by
            simp [skel, hcls]
          have hs2 : skel (Tree.mk n2 c1 t2 d2 s2 o2) = Tree.mk n2 c1 t2 d2 s2 o2 := by
            simp [skel, hcls]
          rw [hop, hs1, hs2]
          simp only [Bool.false_eq_true, false_iff]
          exact hne
        | Declaration =>
          have hop : operand_equal_p (Tree.mk n1 c1 t1 d1 s1 o1)
              (Tree.mk n2 c1 t2 d2 s2 o2) = false := by
            simp only [operand_equal_p, hcls]
            rw [if_neg hbeq]
            simp
          have hs1 : skel (Tree.mk n1 c1 t1 d1 s1 o1) = Tree.mk n1 c1 t1 d1 s1 o1 := by
            simp [skel, hcls]
          have hs2 : skel (Tree.mk n2 c1 t2 d2 s2 o2) = Tree.mk n2 c1 t2 d2 s2 o2 := by
            simp [skel, hcls]
          rw [hop, hs1, hs2]
          simp only [Bool.false_eq_true, false_iff]
          exact hne
        | ValueHandleNode =>
          have hop : operand_equal_p (Tree.mk n1 c1 t1 d1 s1 o1)
              (Tree.mk n2 c1 t2 d2 s2 o2) = false := by
            simp only [operand_equal_p, hcls]
            rw [if_neg hbeq]
            simp
          have hs1 : skel (Tree.mk n1 c1 t1 d1 s1 o1) = Tree.mk n1 c1 t1 d1 s1 o1 := by
            simp [skel, hcls]
          have hs2 : skel (Tree.mk n2 c1 t2 d2 s2 o2) = Tree.mk n2 c1 t2 d2 s2 o2 := by
            simp [skel, hcls]
          rw [hop, hs1, hs2]
          simp only [Bool.false_eq_true, false_iff]
          exact hne
        | Other =>
          have hop : operand_equal_p (Tree.mk n1 c1 t1 d1 s1 o1)
              (Tree.mk n2 c1 t2 d2 s2 o2) = false := by
            simp only [operand_equal_p, hcls]
            rw [if_neg hbeq]
            simp
          have hs1 : skel (Tree.mk n1 c1 t1 d1 s1 o1) = Tree.mk n1 c1 t1 d1 s1 o1 := by
            simp [skel, hcls]
          have hs2 : skel (Tree.mk n2 c1 t2 d2 s2 o2) = Tree.mk n2 c1 t2 d2 s2 o2 := by
            simp [skel, hcls]
          rw [hop, hs1, hs2]
          simp only [Bool.false_eq_true, false_iff]
          exact hne
      · have hop : operand_equal_p (Tree.mk n1 c1 t1 d1 s1 o1)
            (Tree.mk n2 c2 t2 d2 s2 o2) = false := by
          simp only [operand_equal_p]
          rw [if_neg hbeq]
          simp [hc]
        rw [hop]
        simp only [Bool.false_eq_true, false_iff]
        intro h
        have hsc : (skel (Tree.mk n1 c1 t1 d1 s1 o1)).code =
            (skel (Tree.mk n2 c2 t2 d2 s2 o2)).code := by rw [h]
        rw [skel_code, skel_code] at hsc
        simp only [Tree.code] at hsc
        exact hc hsc
theorem operands_equal_p_iff_skel :
    ∀ as bs : List Tree, operands_equal_p as bs = true ↔ skelList as = skelList bs
  | [], [] => by simp [operands_equal_p, skelList]
  | a :: as, b :: bs => by
    simp only [operands_equal_p, Bool.and_eq_true, skelList, List.cons.injEq]
    rw [operand_equal_p_iff_skel a b, operands_equal_p_iff_skel as bs]
  | [], _ :: _ => by simp [operands_equal_p, skelList]
  | _ :: _, [] => by simp [operands_equal_p, skelList]
end

mutual
theorem iterative_hash_expr_skel :
    ∀ (t : Tree) (seed : Nat), iterative_hash_expr (skel t) seed = iterative_hash_expr t seed
  | .mk nid code ty data sa ops, seed => by
    cases hcls : classOf code with
    | Constant =>
      simp [skel, hcls, iterative_hash_expr]
    | Expression =>
      have h1 : skel (Tree.mk nid code ty data sa ops) =
          Tree.mk 0 code 0 0 false (skelList ops) := by simp [skel, hcls]
      rw [h1]
      simp only [iterative_hash_expr, hcls]
      exact hash_operands_skel ops (hmix code seed)
    | SSAName => simp [skel, hcls]
    | Declaration => simp [skel, hcls]
    | ValueHandleNode => simp [skel, hcls]
    | Other => simp [skel, hcls]
theorem hash_operands_skel :
    ∀ (l : List Tree) (seed : Nat), hash_operands (skelList l) seed = hash_operands l seed
  | [], _ => rfl
  | e :: rest, seed => by
    simp only [skelList, hash_operands]
    rw [iterative_hash_expr_skel e seed]
    exact hash_operands_skel rest (iterative_hash_expr e seed)
end

/-- Structurally pure-equal trees hash identically from any seed. -/
theorem iterative_hash_expr_congr {a b : Tree} (h : operand_equal_p a b = true)
    (seed : Nat) : iterative_hash_expr a seed = iterative_hash_expr b seed := by
  rw [← iterative_hash_expr_skel a seed, ← iterative_hash_expr_skel b seed,
    (operand_equal_p_iff_skel a b).mp h]

/-- Characterisation of the source equality tester: two expressions are
`expressions_equal_p` exactly when their structural skeletons coincide and
their types are identical or compatible. -/
theorem expressions_equal_p_iff (compat : Nat → Nat → Bool) (a b : Tree) :
    expressions_equal_p compat a b = true ↔
      skel a = skel b ∧ (a.ty = b.ty ∨ compat a.ty b.ty = true) := by
  unfold expressions_equal_p
  by_cases heq : a = b
  · subst heq
    simp
  · rw [if_neg heq]
    constructor
    · intro h
      by_cases hcond : (a.code == b.code
          && (a.ty == b.ty || compat a.ty b.ty)
          && operand_equal_p a b) = true
      · simp only [Bool.and_eq_true, Bool.or_eq_true, beq_iff_eq] at hcond
        refine ⟨(operand_equal_p_iff_skel a b).mp ?_, ?_⟩ <;> tauto
      · rw [if_neg hcond] at h
        exact absurd h (by simp)
    · intro hsk
      obtain ⟨hskel, hty⟩ := hsk
      have hop := (operand_equal_p_iff_skel a b).mpr hskel
      have hcode : a.code = b.code := by
        have h1 := skel_code a
        have h2 := skel_code b
        rw [← h1, ← h2, hskel]
      have hcond : (a.code == b.code
          && (a.ty == b.ty || compat a.ty b.ty)
          && operand_equal_p a b) = true := by
        simp only [Bool.and_eq_true, Bool.or_eq_true, beq_iff_eq]
        tauto
      rw [if_pos hcond]

/-- The type-compatibility oracle is symmetric (an assumption on the
external language hook). -/
def CompatSym (compat : Nat → Nat → Bool) : Prop :=
  ∀ x y, compat x y = true → compat y x = true

/-- The type-compatibility oracle is transitive (an assumption on the
external language hook). -/
def CompatTrans (compat : Nat → Nat → Bool) : Prop :=
  ∀ x y z, compat x y = true → compat y z = true → compat x z = true

theorem expressions_equal_p_refl (compat : Nat → Nat → Bool) (a : Tree) :
    expressions_equal_p compat a a = true := by
  rw [expressions_equal_p_iff]
  exact ⟨rfl, Or.inl rfl⟩

theorem expressions_equal_p_symm {compat : Nat → Nat → Bool}
    (hsym : CompatSym compat) {a b : Tree}
    (h : expressions_equal_p compat a b = true) :
    expressions_equal_p compat b a = true := by
  rw [expressions_equal_p_iff] at h ⊢
  obtain ⟨hskel, hty⟩ := h
  refine ⟨hskel.symm, ?_⟩
  cases hty with
  | inl h => exact Or.inl h.symm
  | inr h => exact Or.inr (hsym _ _ h)

theorem expressions_equal_p_trans {compat : Nat → Nat → Bool}
    (htrans : CompatTrans compat) {a b c : Tree}
    (h1 : expressions_equal_p compat a b = true)
    (h2 : expressions_equal_p compat b c = true) :
    expressions_equal_p compat a c = true := by
  rw [expressions_equal_p_iff] at h1 h2 ⊢
  obtain ⟨hs1, ht1⟩ := h1
  obtain ⟨hs2, ht2⟩ := h2
  refine ⟨hs1.trans hs2, ?_⟩
  cases ht1 with
  | inl h => cases ht2 with
    | inl h2 => exact Or.inl (h.trans h2)
    | inr h2 => exact Or.inr (h ▸ h2)
  | inr h => cases ht2 with
    | inl h2 => exact Or.inr (h2 ▸ h)
    | inr h2 => exact Or.inr (htrans _ _ _ h h2)

theorem expressions_equal_p_hash {compat : Nat → Nat → Bool} {a b : Tree}
    (h : expressions_equal_p compat a b = true) (seed : Nat) :
    iterative_hash_expr a seed = iterative_hash_expr b seed := by
  rw [← iterative_hash_expr_skel a seed, ← iterative_hash_expr_skel b seed,
    ((expressions_equal_p_iff compat a b).mp h).1]

theorem vuses_equal_refl (compat : Nat → Nat → Bool) :
    ∀ l : List Tree, vuses_equal compat l l = true
  | [] => rfl
  | a :: as => by
    simp only [vuses_equal, Bool.and_eq_true]
    exact ⟨expressions_equal_p_refl compat a, vuses_equal_refl compat as⟩

theorem vuses_equal_symm {compat : Nat → Nat → Bool} (hsym : CompatSym compat) :
    ∀ {l1 l2 : List Tree}, vuses_equal compat l1 l2 = true →
      vuses_equal compat l2 l1 = true
  | [], [], _ => rfl
  | a :: as, b :: bs, h => by
    simp only [vuses_equal, Bool.and_eq_true] at h ⊢
    exact ⟨expressions_equal_p_symm hsym h.1, vuses_equal_symm hsym h.2⟩

theorem vuses_equal_trans {compat : Nat → Nat → Bool}
    (htrans : CompatTrans compat) :
    ∀ {l1 l2 l3 : List Tree}, vuses_equal compat l1 l2 = true →
      vuses_equal compat l2 l3 = true → vuses_equal compat l1 l3 = true
  | [], [], [], _, _ => rfl
  | a :: as, b :: bs, c :: cs, h1, h2 => by
    simp only [vuses_equal, Bool.and_eq_true] at h1 h2 ⊢
    exact ⟨expressions_equal_p_trans htrans h1.1 h2.1,
      vuses_equal_trans htrans h1.2 h2.2⟩

theorem vuses_equal_hash {compat : Nat → Nat → Bool} :
    ∀ {l1 l2 : List Tree}, vuses_equal compat l1 l2 = true →
      ∀ seed, hash_operands l1 seed = hash_operands l2 seed
  | [], [], _, _ => rfl
  | a :: as, b :: bs, h, seed => by
    simp only [vuses_equal, Bool.and_eq_true] at h
    simp only [hash_operands]
    rw [expressions_equal_p_hash h.1 seed]
    exact vuses_equal_hash h.2 _

/-- Structurally equal expressions with pairwise-equal virtual uses get
the same hash from `vn_compute`, provided the assert does not fire. -/
theorem vn_compute_congr {compat : Nat → Nat → Bool} {a b : Tree}
    {u1 u2 : List Tree} (hE : expressions_equal_p compat a b = true)
    (hV : vuses_equal compat u1 u2 = true)
    (hsa : a.stmtAnn = false) (hsb : b.stmtAnn = false) :
    vn_compute a 0 u1 = vn_compute b 0 u2 := by
  simp only [vn_compute, hsa, hsb, Bool.false_eq_true, if_false]
  rw [expressions_equal_p_hash hE 0, vuses_equal_hash hV _]

/-- The equality callback never consults the probe's value field. -/
theorem htab_entry_matches_v_irrel (compat : Nat → Nat → Bool) (v1 v2 e : Tree)
    (vu : List Tree) (h : Nat) (q : ValExprPair) :
    htab_entry_matches compat ⟨v1, e, vu, h⟩ q =
      htab_entry_matches compat ⟨v2, e, vu, h⟩ q := rfl

/-- Probing with equal keys (equal expressions, equal virtual uses, equal
hash) accepts the same entries, provided the oracle is symmetric and
transitive. -/
theorem htab_entry_matches_congr {compat : Nat → Nat → Bool}
    (hsym : CompatSym compat) (htrans : CompatTrans compat)
    {p1 p2 : ValExprPair} (hh : p1.hashcode = p2.hashcode)
    (hE : expressions_equal_p compat p1.e p2.e = true)
    (hV : vuses_equal compat p1.vuses p2.vuses = true) (q : ValExprPair) :
    htab_entry_matches compat p1 q = htab_entry_matches compat p2 q := by
  unfold htab_entry_matches val_expr_pair_expr_eq
  rw [Bool.eq_iff_iff]
  simp only [Bool.and_eq_true, beq_iff_eq]
  constructor
  · rintro ⟨h1, h2, h3⟩
    exact ⟨h1.trans hh, expressions_equal_p_trans htrans h2 hE,
      vuses_equal_trans htrans h3 hV⟩
  · rintro ⟨h1, h2, h3⟩
    exact ⟨h1.trans hh.symm,
      expressions_equal_p_trans htrans h2 (expressions_equal_p_symm hsym hE),
      vuses_equal_trans htrans h3 (vuses_equal_symm hsym hV)⟩

/-- An entry carrying the probe's own key fields matches the probe. -/
theorem htab_entry_matches_self (compat : Nat → Nat → Bool) (p q : ValExprPair)
    (he : q.e = p.e) (hv : q.vuses = p.vuses) (hh : q.hashcode = p.hashcode) :
    htab_entry_matches compat p q = true := by
  unfold htab_entry_matches val_expr_pair_expr_eq
  simp [he, hv, hh, expressions_equal_p_refl, vuses_equal_refl]

/-- When no entry matches the new pair's key, the replace-or-insert step
adds the pair in a fresh slot. -/
theorem htab_insert_eq_append (compat : Nat → Nat → Bool) (p : ValExprPair) :
    ∀ tbl, (∀ q ∈ tbl, htab_entry_matches compat p q = false) →
      htab_insert compat tbl p = tbl ++ [p]
  | [], _ => rfl
  | q :: rest, h => by
    have hq := h q (by simp)
    simp only [htab_insert, hq, Bool.false_eq_true, if_false, List.cons_append,
      List.cons.injEq, true_and]
    exact htab_insert_eq_append compat p rest (fun x hx => h x (by simp [hx]))

/-- After inserting `p`, the first entry matching `p`'s key is `p`
itself (any earlier matching entry was just replaced by `p`). -/
theorem find?_htab_insert (compat : Nat → Nat → Bool) (p : ValExprPair)
    (P : ValExprPair → Bool) (hagree : ∀ q, P q = htab_entry_matches compat p q)
    (hp : P p = true) :
    ∀ tbl, List.find? P (htab_insert compat tbl p) = some p
  | [] => by simp [htab_insert, List.find?, hp]
  | q :: rest => by
    by_cases hm : htab_entry_matches compat p q = true
    · simp only [htab_insert, hm, if_true]
      simp [List.find?_cons_of_pos, hp]
    · have hm2 : htab_entry_matches compat p q = false := by simpa using hm
      simp only [htab_insert, hm2, Bool.false_eq_true, if_false]
      have hPq : P q = false := by rw [hagree]; exact hm2
      rw [List.find?_cons_of_neg _ (by simp [hPq])]
      exact find?_htab_insert compat p P hagree hp rest

/-- The inserted pair is present in the table afterwards. -/
theorem mem_htab_insert (compat : Nat → Nat → Bool) (p : ValExprPair) :
    ∀ tbl, p ∈ htab_insert compat tbl p
  | [] => by simp [htab_insert]
  | q :: rest => by
    by_cases hm : htab_entry_matches compat p q = true
    · simp [htab_insert, hm]
    · have hm2 : htab_entry_matches compat p q = false := by simpa using hm
      simp only [htab_insert, hm2, Bool.false_eq_true, if_false]
      exact List.mem_cons_of_mem q (mem_htab_insert compat p rest)

/-- Inserting replaces an existing matching entry and otherwise adds one:
the number of entries matching the key grows only when none was there. -/
theorem countP_htab_insert (compat : Nat → Nat → Bool) (p : ValExprPair)
    (P : ValExprPair → Bool) (hagree : ∀ q, P q = htab_entry_matches compat p q)
    (hp : P p = true) :
    ∀ tbl, (htab_insert compat tbl p).countP P =
      if tbl.any P then tbl.countP P else tbl.countP P + 1
  | [] => by simp [htab_insert, List.countP_cons, hp]
  | q :: rest => by
    by_cases hm : htab_entry_matches compat p q = true
    · have hPq : P q = true := by rw [hagree]; exact hm
      simp only [htab_insert, hm, if_true, List.any_cons, hPq, Bool.true_or,
        if_true, List.countP_cons, hp, hPq]
    · have hm2 : htab_entry_matches compat p q = false := by simpa using hm
      have hPq : P q = false := by rw [hagree]; exact hm2
      simp only [htab_insert, hm2, Bool.false_eq_true, if_false, List.any_cons,
        hPq, Bool.false_or, List.countP_cons]
      rw [countP_htab_insert compat p P hagree hp rest]
      by_cases ha : rest.any P = true
      · simp [ha, hPq]
      · have ha2 : rest.any P = false := by simpa using ha
        simp [ha2, hPq]

/-- Looking up a constant returns the constant itself. -/
theorem vn_lookup_const {compat : Nat → Nat → Bool} {e : Tree}
    (vu : List Tree) (s : VNState) (hc : is_gimple_min_invariant e = true) :
    vn_lookup compat e vu s = some (some e) := by
  simp [vn_lookup, hc]

/-- On a constant, `set_value_handle` records nothing. -/
theorem set_value_handle_const {e v : Tree} (s : VNState)
    (hc : is_gimple_min_invariant e = true) :
    set_value_handle e v s = some s := by
  have hcls : classOf e.code = .Constant := by
    simpa [is_gimple_min_invariant] using hc
  simp [set_value_handle, EXPR_P, DECL_P, hcls, is_gimple_min_invariant]

/-- On an SSA name, expression or declaration node, `set_value_handle`
records the handle on the node instance. -/
theorem set_value_handle_node {e v : Tree} (s : VNState)
    (h : classOf e.code = .SSAName ∨ classOf e.code = .Expression ∨
      classOf e.code = .Declaration) :
    set_value_handle e v s = some { s with ann := ann_set s.ann e.nid v } := by
  rcases h with h | h | h <;> simp [set_value_handle, EXPR_P, DECL_P, h]

/-- A successful `set_value_handle` only touches the node annotations. -/
theorem set_value_handle_frame {e v : Tree} {s s' : VNState}
    (h : set_value_handle e v s = some s') :
    s'.value_table = s.value_table ∧ s'.nextId = s.nextId := by
  unfold set_value_handle at h
  split_ifs at h
  all_goals first
  | (injection h with h
     subst h
     exact ⟨rfl, rfl⟩)
  | (exact absurd h (by simp))

/-- Unfolding a successful `vn_add`. -/
theorem vn_add_inv {compat : Nat → Nat → Bool} {expr val : Tree}
    {vuses : List Tree} {s s' : VNState}
    (h : vn_add compat expr val vuses s = some s') :
    ∃ hsh tbl, vn_compute expr 0 vuses = some hsh ∧ s.value_table = some tbl ∧
      set_value_handle expr val
        { s with
          value_table := some (htab_insert compat tbl ⟨val, expr, vuses, hsh⟩) } =
        some s' := by
  unfold vn_add at h
  cases hc : vn_compute expr 0 vuses with
  | none =>
    rw [hc] at h
    exact absurd h (by simp)
  | some hsh =>
    cases ht : s.value_table with
    | none =>
      rw [hc, ht] at h
      exact absurd h (by simp)
    | some tbl =>
      rw [hc, ht] at h
      exact ⟨hsh, tbl, rfl, rfl, h⟩

/-- Evaluating `vn_lookup` on a non-constant with a live table. -/
theorem vn_lookup_nonconst {compat : Nat → Nat → Bool} {e : Tree}
    {vu : List Tree} {s : VNState} {hsh : Nat} {tbl : List ValExprPair}
    (hnc : is_gimple_min_invariant e = false)
    (hcomp : vn_compute e 0 vu = some hsh)
    (htbl : s.value_table = some tbl) :
    vn_lookup compat e vu s =
      match htab_find compat tbl ⟨null_tree, e, vu, hsh⟩ with
      | none => some none
      | some q => some (some q.v) := by
  simp [vn_lookup, hnc, hcomp, htbl]

/-- A lookup that reports absent did run: the expression is not a
constant, the assert passed, the table is live, and no entry matched. -/
theorem vn_lookup_absent_inv {compat : Nat → Nat → Bool} {e : Tree}
    {vu : List Tree} {s : VNState}
    (h : vn_lookup compat e vu s = some none) :
    is_gimple_min_invariant e = false ∧ ∃ hsh tbl,
      vn_compute e 0 vu = some hsh ∧ s.value_table = some tbl ∧
      htab_find compat tbl ⟨null_tree, e, vu, hsh⟩ = none := by
  have hnc : is_gimple_min_invariant e = false := by
    by_contra hcc
    rw [vn_lookup_const vu s (by simpa using hcc)] at h
    simp at h
  refine ⟨hnc, ?_⟩
  cases hcomp : vn_compute e 0 vu with
  | none =>
    have hend : vn_lookup compat e vu s = none := by
      simp [vn_lookup, hnc, hcomp]
    rw [hend] at h
    exact absurd h (by simp)
  | some hsh =>
    cases htbl : s.value_table with
    | none =>
      have hend : vn_lookup compat e vu s = none := by
        simp [vn_lookup, hnc, hcomp, htbl]
      rw [hend] at h
      exact absurd h (by simp)
    | some tbl =>
      rw [vn_lookup_nonconst hnc hcomp htbl] at h
      refine ⟨hsh, tbl, rfl, rfl, ?_⟩
      cases hf : htab_find compat tbl ⟨null_tree, e, vu, hsh⟩ with
      | none => rfl
      | some q =>
        rw [hf] at h
        simp at h

/-- A lookup on a non-constant that reports a handle found it in the
table. -/
theorem vn_lookup_found_inv {compat : Nat → Nat → Bool} {e : Tree}
    {vu : List Tree} {s : VNState} {v : Tree}
    (hnc : is_gimple_min_invariant e = false)
    (h : vn_lookup compat e vu s = some (some v)) :
    ∃ hsh tbl q, vn_compute e 0 vu = some hsh ∧ s.value_table = some tbl ∧
      htab_find compat tbl ⟨null_tree, e, vu, hsh⟩ = some q ∧ q.v = v := by
  cases hcomp : vn_compute e 0 vu with
  | none =>
    have hend : vn_lookup compat e vu s = none := by
      simp [vn_lookup, hnc, hcomp]
    rw [hend] at h
    exact absurd h (by simp)
  | some hsh =>
    cases htbl : s.value_table with
    | none =>
      have hend : vn_lookup compat e vu s = none := by
        simp [vn_lookup, hnc, hcomp, htbl]
      rw [hend] at h
      exact absurd h (by simp)
    | some tbl =>
      rw [vn_lookup_nonconst hnc hcomp htbl] at h
      cases hf : htab_find compat tbl ⟨null_tree, e, vu, hsh⟩ with
      | none =>
        rw [hf] at h
        simp at h
      | some q =>
        rw [hf] at h
        refine ⟨hsh, tbl, q, rfl, rfl, hf, ?_⟩
        simpa using h

/-- Evaluating `vn_lookup_or_add` when the lookup hits. -/
theorem vn_lookup_or_add_hit {compat : Nat → Nat → Bool} {e : Tree}
    {vu : List Tree} {s : VNState} {v : Tree}
    (hl : vn_lookup compat e vu s = some (some v)) :
    vn_lookup_or_add compat e vu s =
      match set_value_handle e v s with
      | none => none
      | some s2 => some (v, s2) := by
  unfold vn_lookup_or_add
  rw [hl]

/-- Evaluating `vn_lookup_or_add` when the lookup misses: a fresh handle
carrying the next id is created, added, and recorded. -/
theorem vn_lookup_or_add_miss {compat : Nat → Nat → Bool} {e : Tree}
    {vu : List Tree} {s : VNState}
    (hl : vn_lookup compat e vu s = some none) :
    vn_lookup_or_add compat e vu s =
      match vn_add compat e (Tree.mk (s.nextId % 4294967296) VALUE_HANDLE e.ty (s.nextId % 4294967296) false [])
          vu { s with nextId := (s.nextId + 1) % 4294967296 } with
      | none => none
      | some s2 =>
        match set_value_handle e
            (Tree.mk (s.nextId % 4294967296) VALUE_HANDLE e.ty (s.nextId % 4294967296) false []) s2 with
        | none => none
        | some s3 => some (Tree.mk (s.nextId % 4294967296) VALUE_HANDLE e.ty (s.nextId % 4294967296) false [], s3) := by
  unfold vn_lookup_or_add
  rw [hl]
  simp [make_value_handle]

/-- On a constant, `vn_lookup_or_add` returns the constant itself and
leaves the whole state untouched. -/
theorem vn_lookup_or_add_const {compat : Nat → Nat → Bool} {e : Tree}
    (vu : List Tree) (s : VNState) (hc : is_gimple_min_invariant e = true) :
    vn_lookup_or_add compat e vu s = some (e, s) := by
  rw [vn_lookup_or_add_hit (vn_lookup_const vu s hc),
    set_value_handle_const s hc]

/-- A successful `vn_lookup_or_add` either keeps the id counter (table
hit) or advances it one step modulo 2^32 (miss allocates one handle). -/
theorem vn_lookup_or_add_nextId {compat : Nat → Nat → Bool} {e : Tree}
    {vu : List Tree} {s s' : VNState} {v : Tree}
    (h : vn_lookup_or_add compat e vu s = some (v, s')) :
    s'.nextId = s.nextId ∨ s'.nextId = (s.nextId + 1) % 4294967296 := by
  cases hl : vn_lookup compat e vu s with
  | none =>
    have hend : vn_lookup_or_add compat e vu s = none := by
      unfold vn_lookup_or_add
      rw [hl]
    rw [hend] at h
    exact absurd h (by simp)
  | some r =>
    cases r with
    | some v0 =>
      rw [vn_lookup_or_add_hit hl] at h
      cases hs : set_value_handle e v0 s with
      | none =>
        rw [hs] at h
        simp at h
      | some s2 =>
        rw [hs] at h
        simp only [Option.some.injEq, Prod.mk.injEq] at h
        obtain ⟨hv, hst⟩ := h
        subst hst
        exact Or.inl (set_value_handle_frame hs).2
    | none =>
      rw [vn_lookup_or_add_miss hl] at h
      cases ha : vn_add compat e (Tree.mk (s.nextId % 4294967296) VALUE_HANDLE e.ty (s.nextId % 4294967296) false [])
          vu { s with nextId := (s.nextId + 1) % 4294967296 } with
      | none =>
        rw [ha] at h
        simp at h
      | some s2 =>
        rw [ha] at h
        simp only [] at h
        cases hs3 : set_value_handle e
            (Tree.mk (s.nextId % 4294967296) VALUE_HANDLE e.ty (s.nextId % 4294967296) false []) s2 with
        | none =>
          rw [hs3] at h
          simp at h
        | some s3 =>
          rw [hs3] at h
          simp only [Option.some.injEq, Prod.mk.injEq] at h
          obtain ⟨hv, hst⟩ := h
          subst hst
          obtain ⟨hsh, tbl, _, _, hset⟩ := vn_add_inv ha
          have h2 := (set_value_handle_frame hset).2
          have h3 := (set_value_handle_frame hs3).2
          simp only at h2
          exact Or.inr (by omega)

/-- One public operation advances the id counter by at most one step,
modulo 2^32: only a `lookup_or_add` miss creates a handle. -/
theorem runOp_nextId_step {compat : Nat → Nat → Bool} {op : Op}
    {s s' : VNState} (h : runOp compat op s = some s') :
    s'.nextId = s.nextId ∨ s'.nextId = (s.nextId + 1) % 4294967296 := by
  cases op with
  | opInit =>
    simp only [runOp, vn_init, Option.some.injEq] at h
    subst h
    exact Or.inl rfl
  | opDelete =>
    simp only [runOp, vn_delete] at h
    cases ht : s.value_table with
    | none =>
      rw [ht] at h
      exact absurd h (by simp)
    | some tbl =>
      rw [ht] at h
      injection h with h
      subst h
      exact Or.inl rfl
  | opLookup e vu =>
    simp only [runOp, Option.map_eq_some'] at h
    obtain ⟨_, _, h⟩ := h
    subst h
    exact Or.inl rfl
  | opAdd e v vu =>
    simp only [runOp] at h
    obtain ⟨hsh, tbl, _, _, hset⟩ := vn_add_inv h
    have h2 := (set_value_handle_frame hset).2
    simp only [VNState.nextId] at h2
    exact Or.inl h2
  | opLookupOrAdd e vu =>
    simp only [runOp, Option.map_eq_some'] at h
    obtain ⟨⟨v, s2⟩, hrun, h⟩ := h
    subst h
    exact vn_lookup_or_add_nextId hrun
  | opGetHandle e =>
    simp only [runOp, Option.map_eq_some'] at h
    obtain ⟨_, _, h⟩ := h
    subst h
    exact Or.inl rfl

/-- Across a sequence of public operations the id counter advances, modulo
2^32, by one step per handle creation — at most one per operation. -/
theorem runOps_nextId_evolve {compat : Nat → Nat → Bool} :
    ∀ {ops : List Op} {s s' : VNState}, runOps compat ops s = some s' →
      ∃ k, k ≤ ops.length ∧
        s'.nextId % 4294967296 = (s.nextId + k) % 4294967296
  | [], s, s', h => by
    simp only [runOps, Option.some.injEq] at h
    subst h
    exact ⟨0, Nat.le_refl _, by simp⟩
  | op :: rest, s, s', h => by
    simp only [runOps] at h
    cases h1 : runOp compat op s with
    | none =>
      rw [h1] at h
      exact absurd h (by simp)
    | some s1 =>
      rw [h1] at h
      obtain ⟨k, hk, hmod⟩ := runOps_nextId_evolve h
      cases runOp_nextId_step h1 with
      | inl heq =>
        refine ⟨k, ?_, by rw [hmod, heq]⟩
        simp only [List.length_cons]
        omega
      | inr heq =>
        refine ⟨k + 1, ?_, ?_⟩
        · simp only [List.length_cons]
          omega
        · rw [hmod, heq]
          omega

/-- Extensionally equal predicates find the same entry. -/
theorem find?_ext {α : Type} {p q : α → Bool} (h : ∀ a, p a = q a) :
    ∀ l : List α, l.find? p = l.find? q
  | [] => rfl
  | a :: rest => by
    by_cases hp : p a = true
    · rw [List.find?_cons_of_pos _ hp, List.find?_cons_of_pos _ (by rw [← h a]; exact hp)]
    · have hp2 : p a = false := by simpa using hp
      rw [List.find?_cons_of_neg _ (by simp [hp2]),
        List.find?_cons_of_neg _ (by simp [← h a, hp2])]
      exact find?_ext h rest

/-- Finding nothing in a prefix pushes the search into the suffix. -/
theorem find?_append_of_none {α : Type} {p : α → Bool} {l1 : List α}
    (h : l1.find? p = none) (l2 : List α) :
    (l1 ++ l2).find? p = l2.find? p := by
  induction l1 with
  | nil => rfl
  | cons a rest ih =>
    rw [List.find?_eq_none] at h
    have ha : p a = false := by simpa using h a (by simp)
    rw [List.cons_append, List.find?_cons_of_neg _ (by simp [ha])]
    exact ih (List.find?_eq_none.mpr (fun x hx => h x (by simp [hx])))

/-- Reading back the association just written. -/
theorem ann_get_set (ann : List (Nat × Tree)) (nid : Nat) (v : Tree) :
    ann_get (ann_set ann nid v) nid = some v := by
  simp [ann_get, ann_set]

/-- SSA names, expressions and declarations are not minimal invariants. -/
theorem nonconst_of_cls {e : Tree}
    (h : classOf e.code = .SSAName ∨ classOf e.code = .Expression ∨
      classOf e.code = .Declaration) :
    is_gimple_min_invariant e = false := by
  rcases h with h | h | h <;> simp [is_gimple_min_invariant, h]

/-- On SSA names, expressions and declarations, `get_value_handle`
answers from the per-node association. -/
theorem get_value_handle_node {e : Tree} (s : VNState)
    (h : classOf e.code = .SSAName ∨ classOf e.code = .Expression ∨
      classOf e.code = .Declaration) :
    get_value_handle e s = some (ann_get s.ann e.nid) := by
  rcases h with h | h | h <;>
    simp [get_value_handle, EXPR_P, DECL_P, h, is_gimple_min_invariant]

/-- Structural equality preserves constancy: equal expressions have the
same code, hence the same node class. -/
theorem is_gimple_min_invariant_congr {compat : Nat → Nat → Bool}
    {e1 e2 : Tree} (h : expressions_equal_p compat e1 e2 = true) :
    is_gimple_min_invariant e1 = is_gimple_min_invariant e2 := by
  have hskel := ((expressions_equal_p_iff compat e1 e2).mp h).1
  have hcode : e1.code = e2.code := by
    have h1 := skel_code e1
    have h2 := skel_code e2
    rw [← h1, ← h2, hskel]
  simp [is_gimple_min_invariant, hcode]

/-- When the assert passes, the node carries no statement annotation. -/
theorem stmtAnn_false_of_compute {e : Tree} {val hsh : Nat} {vu : List Tree}
    (h : vn_compute e val vu = some hsh) : e.stmtAnn = false := by
  by_contra hcc
  have hsa : e.stmtAnn = true := by simpa using hcc
  simp [vn_compute, hsa] at h

/-- Looking up a non-constant statement-annotated node is fatal. -/
theorem vn_lookup_stmtAnn_none {compat : Nat → Nat → Bool} {e : Tree}
    (vu : List Tree) (s : VNState) (hnc : is_gimple_min_invariant e = false)
    (hsa : e.stmtAnn = true) : vn_lookup compat e vu s = none := by
  simp [vn_lookup, hnc, vn_compute, hsa]

/-- A fatal lookup makes `vn_lookup_or_add` fatal too. -/
theorem vn_lookup_or_add_none {compat : Nat → Nat → Bool} {e : Tree}
    {vu : List Tree} {s : VNState} (hl : vn_lookup compat e vu s = none) :
    vn_lookup_or_add compat e vu s = none := by
  unfold vn_lookup_or_add
  rw [hl]

/-- A successful `vn_lookup_or_add` whose lookup hit returns the handle
found in the table. -/
theorem vn_lookup_or_add_hit_value {compat : Nat → Nat → Bool} {e : Tree}
    {vu : List Tree} {s s' : VNState} {v v' : Tree}
    (hl : vn_lookup compat e vu s = some (some v))
    (h : vn_lookup_or_add compat e vu s = some (v', s')) : v' = v := by
  rw [vn_lookup_or_add_hit hl] at h
  cases hs : set_value_handle e v s with
  | none =>
    rw [hs] at h
    simp at h
  | some s2 =>
    rw [hs] at h
    simp only [Option.some.injEq, Prod.mk.injEq] at h
    exact h.1.symm

/-- A successful `vn_lookup_or_add` whose lookup missed allocated the
next id, inserted the new pair, and bumped the counter. -/
theorem vn_lookup_or_add_miss_inv {compat : Nat → Nat → Bool} {e : Tree}
    {vu : List Tree} {s s' : VNState} {v : Tree}
    (hl : vn_lookup compat e vu s = some none)
    (h : vn_lookup_or_add compat e vu s = some (v, s')) :
    v = Tree.mk (s.nextId % 4294967296) VALUE_HANDLE e.ty (s.nextId % 4294967296) false [] ∧
    ∃ hsh tbl, vn_compute e 0 vu = some hsh ∧ s.value_table = some tbl ∧
      s'.value_table = some (htab_insert compat tbl ⟨v, e, vu, hsh⟩) ∧
      s'.nextId = (s.nextId + 1) % 4294967296 := by
  rw [vn_lookup_or_add_miss hl] at h
  cases ha : vn_add compat e (Tree.mk (s.nextId % 4294967296) VALUE_HANDLE e.ty (s.nextId % 4294967296) false [])
      vu { s with nextId := (s.nextId + 1) % 4294967296 } with
  | none =>
    rw [ha] at h
    simp at h
  | some s2 =>
    rw [ha] at h
    simp only [] at h
    cases hs3 : set_value_handle e
        (Tree.mk (s.nextId % 4294967296) VALUE_HANDLE e.ty (s.nextId % 4294967296) false []) s2 with
    | none =>
      rw [hs3] at h
      simp at h
    | some s3 =>
      rw [hs3] at h
      simp only [Option.some.injEq, Prod.mk.injEq] at h
      obtain ⟨hv, hst⟩ := h
      subst hst
      refine ⟨hv.symm, ?_⟩
      obtain ⟨hsh, tbl, hcomp, htbl, hset⟩ := vn_add_inv ha
      simp only [] at htbl
      have hf2 := set_value_handle_frame hset
      have hf3 := set_value_handle_frame hs3
      refine ⟨hsh, tbl, hcomp, htbl, ?_, ?_⟩
      · rw [hf3.1, hf2.1, hv.symm]
      · rw [hf3.2, hf2.2]

/-!
Concrete material for closed evaluations: a trivial oracle, a few nodes
(SSA names, two structurally identical additions, memory tokens, two
copies of the constant 5, externally built handles), and the states the
operations produce on them.
-/

/-- A trivially symmetric and transitive oracle: no two distinct type
ids are compatible. -/
def compat0 : Nat → Nat → Bool := fun _ _ => false

/-- An SSA name `a_1`. -/
def ssa_a : Tree := Tree.mk 10 2 7 0 false []

/-- An SSA name `b_1`. -/
def ssa_b : Tree := Tree.mk 11 2 7 0 false []

/-- The expression `a_1 + b_1`. -/
def plus_ab : Tree := Tree.mk 20 12 7 0 false [ssa_a, ssa_b]

/-- A distinct node instance of the same expression `a_1 + b_1`. -/
def plus_ab_copy : Tree := Tree.mk 21 12 7 0 false [ssa_a, ssa_b]

/-- A memory-state token (a virtual-use SSA name). -/
def mem1 : Tree := Tree.mk 30 2 8 0 false []

/-- A second, different memory-state token. -/
def mem2 : Tree := Tree.mk 31 2 8 0 false []

/-- The integer constant 5. -/
def const_five : Tree := Tree.mk 40 0 7 5 false []

/-- A distinct node instance of the integer constant 5. -/
def const_five_copy : Tree := Tree.mk 41 0 7 5 false []

/-- An externally constructed value handle. -/
def handle_h1 : Tree := Tree.mk 90 4 7 90 false []

/-- Another externally constructed value handle. -/
def handle_h2 : Tree := Tree.mk 91 4 7 91 false []

/-- The state right after `vn_init` in a fresh process. -/
def active0 : VNState := vn_init initial_state

/-- The hash `vn_compute` gives `plus_ab` with no virtual uses. -/
def hash_plus_ab : Nat := hash_operands [] (iterative_hash_expr plus_ab 0)

/-- The hash `vn_compute` gives `const_five` with no virtual uses. -/
def hash_const_five : Nat := hash_operands [] (iterative_hash_expr const_five 0)

/-- The handle created by the first allocation of a session (id 0). -/
def handle0 : Tree := Tree.mk 0 VALUE_HANDLE 7 0 false []

/-- The handle created by the second allocation (id 1). -/
def handle1 : Tree := Tree.mk 1 VALUE_HANDLE 7 1 false []

/-!
The claims.
-/

/-- Claim C2: for every constant (minimal-invariant) expression `c` and
every memory-dependency set, `vn_lookup` returns `c` itself and
`vn_lookup_or_add` returns `c` itself with the state — in particular the
handle-id generator — completely unchanged, so no value handle is
allocated. -/
theorem claim_C2_constant_self_identity
    (compat : Nat → Nat → Bool) (c : Tree) (vuses : List Tree) (s : VNState)
    (hc : is_gimple_min_invariant c = true) :
    vn_lookup compat c vuses s = some (some c) ∧
    vn_lookup_or_add compat c vuses s = some (c, s) :=
  ⟨vn_lookup_const vuses s hc, vn_lookup_or_add_const vuses s hc⟩

/-- Witness for C2: the constant 5 in a fresh session. -/
theorem claim_C2_witness :
    is_gimple_min_invariant const_five = true ∧
    (vn_lookup compat0 const_five [mem1] active0 = some (some const_five) ∧
     vn_lookup_or_add compat0 const_five [mem1] active0 = some (const_five, active0)) :=
  ⟨by decide,
   claim_C2_constant_self_identity compat0 const_five [mem1] active0 (by decide)⟩

/-- Claim C7: the hasher is defined only over value-producing
sub-expressions: `vn_compute` hits its fatal assertion exactly on nodes
carrying a statement annotation, and never on a non-statement node. -/
theorem claim_C7_hash_rejects_statements (expr : Tree) (val : Nat)
    (vuses : List Tree) :
    vn_compute expr val vuses = none ↔ expr.stmtAnn = true := by
  unfold vn_compute
  by_cases h : expr.stmtAnn = true
  · simp [h]
  · simp at h
    simp [h]

/-- Claim C8: a lookup that finds no equal-key entry returns absent
(`NULL_TREE`) and leaves the session state — the value table, the
node-handle associations and the id generator — completely unchanged:
`vn_lookup` only reads, and running it as an operation returns the very
same state. -/
theorem claim_C8_lookup_miss_no_effect
    (compat : Nat → Nat → Bool) (e : Tree) (vuses : List Tree) (s : VNState)
    (hsh : Nat) (tbl : List ValExprPair)
    (hnc : is_gimple_min_invariant e = false)
    (hcomp : vn_compute e 0 vuses = some hsh)
    (htbl : s.value_table = some tbl)
    (hmiss : htab_find compat tbl ⟨null_tree, e, vuses, hsh⟩ = none) :
    vn_lookup compat e vuses s = some none ∧
    runOp compat (Op.opLookup e vuses) s = some s := by
  have hl : vn_lookup compat e vuses s = some none := by
    rw [vn_lookup_nonconst hnc hcomp htbl, hmiss]
  exact ⟨hl, by simp [runOp, hl]⟩

/-- Witness for C8: `a_1 + b_1` against the fresh empty table. -/
theorem claim_C8_witness :
    (is_gimple_min_invariant plus_ab = false ∧
     vn_compute plus_ab 0 [] = some hash_plus_ab ∧
     active0.value_table = some [] ∧
     htab_find compat0 [] ⟨null_tree, plus_ab, [], hash_plus_ab⟩ = none) ∧
    (vn_lookup compat0 plus_ab [] active0 = some none ∧
     runOp compat0 (Op.opLookup plus_ab []) active0 = some active0) :=
  ⟨⟨by decide, by decide, by decide, by decide⟩,
   claim_C8_lookup_miss_no_effect compat0 plus_ab [] active0 hash_plus_ab []
     (by decide) (by decide) (by decide) (by decide)⟩

/-- Claim C10: `vn_add` on a constant succeeds and stores a table entry
for it, but the entry is unreachable through `vn_lookup`, which
short-circuits on constants and still returns the constant itself rather
than the added handle. -/
theorem claim_C10_add_constant_unreachable
    (compat : Nat → Nat → Bool) (c h : Tree) (vuses : List Tree)
    (s s2 : VNState)
    (hc : is_gimple_min_invariant c = true)
    (ha : vn_add compat c h vuses s = some s2) :
    vn_lookup compat c vuses s2 = some (some c) ∧
    ∃ tbl2, s2.value_table = some tbl2 ∧ ∃ q ∈ tbl2, q.e = c ∧ q.v = h := by
  refine ⟨vn_lookup_const vuses s2 hc, ?_⟩
  obtain ⟨hsh, tbl, hcomp, htbl, hset⟩ := vn_add_inv ha
  have hframe := (set_value_handle_frame hset).1
  simp only [] at hframe
  refine ⟨htab_insert compat tbl ⟨h, c, vuses, hsh⟩, hframe, ?_⟩
  exact ⟨⟨h, c, vuses, hsh⟩, mem_htab_insert compat _ tbl, rfl, rfl⟩

/-- The state after manually adding an entry for the constant 5. -/
def s_add_const : VNState :=
  ⟨some [⟨handle_h1, const_five, [], hash_const_five⟩], [], 0⟩

/-- Witness for C10: adding handle 90 for the constant 5 leaves lookup
answering 5. -/
theorem claim_C10_witness :
    (is_gimple_min_invariant const_five = true ∧
     vn_add compat0 const_five handle_h1 [] active0 = some s_add_const) ∧
    (vn_lookup compat0 const_five [] s_add_const = some (some const_five) ∧
     ∃ tbl2, s_add_const.value_table = some tbl2 ∧
       ∃ q ∈ tbl2, q.e = const_five ∧ q.v = handle_h1) :=
  ⟨⟨by decide, by decide⟩,
   claim_C10_add_constant_unreachable compat0 const_five handle_h1 [] active0
     s_add_const (by decide) (by decide)⟩

/-- Claim C9: whenever `vn_lookup_or_add` returns a handle for an SSA
name, expression or declaration node — whether freshly allocated or from
an existing table hit — the node-instance association is refreshed, so a
subsequent `get_value_handle` on that node returns that same handle. -/
theorem claim_C9_lookup_or_add_refreshes_association
    (compat : Nat → Nat → Bool) (e : Tree) (vuses : List Tree)
    (s s' : VNState) (v : Tree)
    (hcls : classOf e.code = .SSAName ∨ classOf e.code = .Expression ∨
      classOf e.code = .Declaration)
    (h : vn_lookup_or_add compat e vuses s = some (v, s')) :
    get_value_handle e s' = some (some v) := by
  cases hl : vn_lookup compat e vuses s with
  | none =>
    rw [vn_lookup_or_add_none hl] at h
    exact absurd h (by simp)
  | some r =>
    cases r with
    | some v0 =>
      rw [vn_lookup_or_add_hit hl, set_value_handle_node s hcls] at h
      simp only [Option.some.injEq, Prod.mk.injEq] at h
      obtain ⟨hv, hst⟩ := h
      subst hst
      subst hv
      rw [get_value_handle_node _ hcls]
      simp [ann_get_set]
    | none =>
      rw [vn_lookup_or_add_miss hl] at h
      cases ha : vn_add compat e
          (Tree.mk (s.nextId % 4294967296) VALUE_HANDLE e.ty (s.nextId % 4294967296) false []) vuses
          { s with nextId := (s.nextId + 1) % 4294967296 } with
      | none =>
        rw [ha] at h
        simp at h
      | some s2 =>
        rw [ha] at h
        simp only [] at h
        rw [set_value_handle_node s2 hcls] at h
        simp only [Option.some.injEq, Prod.mk.injEq] at h
        obtain ⟨hv, hst⟩ := h
        subst hst
        subst hv
        rw [get_value_handle_node _ hcls]
        simp [ann_get_set]

/-- The state after the first `vn_lookup_or_add` of `a_1 + b_1` in a
fresh session: the new pair is in the table and the node association was
written (twice: once by `vn_add`, once by the unconditional refresh). -/
def s_after_first : VNState :=
  ⟨some [⟨handle0, plus_ab, [], hash_plus_ab⟩], [(20, handle0), (20, handle0)], 1⟩

/-- Witness for C9: after `vn_lookup_or_add` of `a_1 + b_1`,
`get_value_handle` answers with the created handle. -/
theorem claim_C9_witness :
    ((classOf plus_ab.code = .SSAName ∨ classOf plus_ab.code = .Expression ∨
        classOf plus_ab.code = .Declaration) ∧
     vn_lookup_or_add compat0 plus_ab [] active0 = some (handle0, s_after_first)) ∧
    get_value_handle plus_ab s_after_first = some (some handle0) :=
  ⟨⟨by decide, by decide⟩,
   claim_C9_lookup_or_add_refreshes_association compat0 plus_ab [] active0
     s_after_first handle0 (by decide) (by decide)⟩

/-- Counterexample to claim C6: the claim says `lookup`, `add`,
`lookup_or_add` and `get_handle` are all detectably fatal outside the
Active session state.  But after `init` followed by `teardown` the state
is back to the pristine one (NULL table), and there `vn_lookup` and
`vn_lookup_or_add` on a constant succeed silently, and `get_value_handle`
on an SSA name succeeds silently returning `NULL_TREE`. -/
theorem claim_C6_counterexample :
    runOps compat0 [Op.opInit, Op.opDelete] initial_state = some initial_state ∧
    initial_state.value_table = none ∧
    vn_lookup compat0 const_five [] initial_state = some (some const_five) ∧
    vn_lookup_or_add compat0 const_five [] initial_state =
      some (const_five, initial_state) ∧
    get_value_handle ssa_a initial_state = some none := by decide

/-- Looking up a non-constant with no table installed is fatal. -/
theorem vn_lookup_no_table {compat : Nat → Nat → Bool} {e : Tree}
    (vuses : List Tree) {s : VNState} (hs : s.value_table = none)
    (hnc : is_gimple_min_invariant e = false) :
    vn_lookup compat e vuses s = none := by
  by_cases hsa : e.stmtAnn = true
  · exact vn_lookup_stmtAnn_none vuses s hnc hsa
  · have hsa2 : e.stmtAnn = false := by simpa using hsa
    simp [vn_lookup, hnc, vn_compute, hsa2, hs]

/-- Adding with no table installed is fatal. -/
theorem vn_add_no_table {compat : Nat → Nat → Bool} {e v : Tree}
    (vuses : List Tree) {s : VNState} (hs : s.value_table = none) :
    vn_add compat e v vuses s = none := by
  cases hcmp : vn_compute e 0 vuses <;> simp [vn_add, hcmp, hs]

/-- Claim C6 as amended: outside the Active state (NULL table), `add` is
always fatal and `lookup`/`lookup_or_add` on a non-constant are fatal;
but `lookup` and `lookup_or_add` on a constant succeed silently returning
the constant, and `get_value_handle` succeeds silently on every constant,
SSA name, expression or declaration node, so the claim's
"never a silent success" fails for those operations. -/
theorem claim_C6_amended_inactive_behavior
    (compat : Nat → Nat → Bool) (e v c : Tree) (vuses : List Tree)
    (s : VNState) (hs : s.value_table = none)
    (hnc : is_gimple_min_invariant e = false)
    (hc : is_gimple_min_invariant c = true) :
    vn_lookup compat e vuses s = none ∧
    vn_add compat e v vuses s = none ∧
    vn_add compat c v vuses s = none ∧
    vn_lookup_or_add compat e vuses s = none ∧
    vn_lookup compat c vuses s = some (some c) ∧
    vn_lookup_or_add compat c vuses s = some (c, s) ∧
    get_value_handle c s = some (some c) ∧
    (classOf e.code = .SSAName ∨ classOf e.code = .Expression ∨
        classOf e.code = .Declaration →
      get_value_handle e s = some (ann_get s.ann e.nid)) := by
  refine ⟨vn_lookup_no_table vuses hs hnc, vn_add_no_table vuses hs,
    vn_add_no_table vuses hs,
    vn_lookup_or_add_none (vn_lookup_no_table vuses hs hnc),
    vn_lookup_const vuses s hc, vn_lookup_or_add_const vuses s hc,
    by simp [get_value_handle, hc],
    fun hcls => get_value_handle_node s hcls⟩

/-- Witness for the amended C6 in the pristine (equivalently, torn-down)
state. -/
theorem claim_C6_amended_witness :
    (initial_state.value_table = none ∧
     is_gimple_min_invariant plus_ab = false ∧
     is_gimple_min_invariant const_five = true) ∧
    (vn_lookup compat0 plus_ab [mem1] initial_state = none ∧
     vn_add compat0 plus_ab handle_h1 [mem1] initial_state = none ∧
     vn_add compat0 const_five handle_h1 [mem1] initial_state = none ∧
     vn_lookup_or_add compat0 plus_ab [mem1] initial_state = none ∧
     vn_lookup compat0 const_five [mem1] initial_state =
       some (some const_five) ∧
     vn_lookup_or_add compat0 const_five [mem1] initial_state =
       some (const_five, initial_state) ∧
     get_value_handle const_five initial_state = some (some const_five) ∧
     (classOf plus_ab.code = .SSAName ∨ classOf plus_ab.code = .Expression ∨
         classOf plus_ab.code = .Declaration →
       get_value_handle plus_ab initial_state =
         some (ann_get initial_state.ann plus_ab.nid))) :=
  ⟨⟨by decide, by decide, by decide⟩,
   claim_C6_amended_inactive_behavior compat0 plus_ab handle_h1 const_five
     [mem1] initial_state (by decide) (by decide) (by decide)⟩

/-- Claim C4: on a non-constant expression, a second `vn_add` with an
equal key replaces the first entry wholesale: the subsequent lookup
returns the second handle, and if the table held at most one entry for
that key before, it holds exactly one afterwards. -/
theorem claim_C4_add_replace_semantics
    (compat : Nat → Nat → Bool) (e h1 h2 : Tree) (deps : List Tree)
    (s s1 s2 : VNState) (hsh : Nat) (tbl : List ValExprPair)
    (hnc : is_gimple_min_invariant e = false)
    (hcomp : vn_compute e 0 deps = some hsh)
    (htbl : s.value_table = some tbl)
    (huniq : tbl.countP (htab_entry_matches compat ⟨null_tree, e, deps, hsh⟩) ≤ 1)
    (ha1 : vn_add compat e h1 deps s = some s1)
    (ha2 : vn_add compat e h2 deps s1 = some s2) :
    vn_lookup compat e deps s2 = some (some h2) ∧
    ∃ tbl2, s2.value_table = some tbl2 ∧
      tbl2.countP (htab_entry_matches compat ⟨null_tree, e, deps, hsh⟩) = 1 := by
  obtain ⟨hsh1, tbl1, hcomp1, htbl1, hset1⟩ := vn_add_inv ha1
  rw [hcomp] at hcomp1
  injection hcomp1 with hh1
  subst hh1
  rw [htbl] at htbl1
  injection htbl1 with ht1
  subst ht1
  have hs1tbl : s1.value_table =
      some (htab_insert compat tbl ⟨h1, e, deps, hsh⟩) :=
    (set_value_handle_frame hset1).1
  obtain ⟨hsh2, tbl2x, hcomp2, htbl2, hset2⟩ := vn_add_inv ha2
  rw [hcomp] at hcomp2
  injection hcomp2 with hh2
  subst hh2
  rw [hs1tbl] at htbl2
  injection htbl2 with ht2
  subst ht2
  have hs2tbl : s2.value_table =
      some (htab_insert compat (htab_insert compat tbl ⟨h1, e, deps, hsh⟩)
        ⟨h2, e, deps, hsh⟩) :=
    (set_value_handle_frame hset2).1
  have hagree1 : ∀ q, htab_entry_matches compat ⟨null_tree, e, deps, hsh⟩ q =
      htab_entry_matches compat ⟨h1, e, deps, hsh⟩ q := fun _ => rfl
  have hagree2 : ∀ q, htab_entry_matches compat ⟨null_tree, e, deps, hsh⟩ q =
      htab_entry_matches compat ⟨h2, e, deps, hsh⟩ q := fun _ => rfl
  have hp1 : htab_entry_matches compat ⟨null_tree, e, deps, hsh⟩
      ⟨h1, e, deps, hsh⟩ = true := by
    rw [hagree1]
    exact htab_entry_matches_self compat _ _ rfl rfl rfl
  have hp2 : htab_entry_matches compat ⟨null_tree, e, deps, hsh⟩
      ⟨h2, e, deps, hsh⟩ = true := by
    rw [hagree2]
    exact htab_entry_matches_self compat _ _ rfl rfl rfl
  have hfind2 : List.find? (htab_entry_matches compat ⟨null_tree, e, deps, hsh⟩)
      (htab_insert compat (htab_insert compat tbl ⟨h1, e, deps, hsh⟩)
        ⟨h2, e, deps, hsh⟩) = some ⟨h2, e, deps, hsh⟩ :=
    find?_htab_insert compat _ _ hagree2 hp2 _
  have hlook : vn_lookup compat e deps s2 = some (some h2) := by
    rw [vn_lookup_nonconst hnc hcomp hs2tbl]
    unfold htab_find
    rw [hfind2]
  refine ⟨hlook, _, hs2tbl, ?_⟩
  have hfind1 : List.find? (htab_entry_matches compat ⟨null_tree, e, deps, hsh⟩)
      (htab_insert compat tbl ⟨h1, e, deps, hsh⟩) = some ⟨h1, e, deps, hsh⟩ :=
    find?_htab_insert compat _ _ hagree1 hp1 _
  have hany1 : (htab_insert compat tbl ⟨h1, e, deps, hsh⟩).any
      (htab_entry_matches compat ⟨null_tree, e, deps, hsh⟩) = true := by
    rw [List.any_eq_true]
    exact ⟨_, List.mem_of_find?_eq_some hfind1, hp1⟩
  rw [countP_htab_insert compat _ _ hagree2 hp2, if_pos hany1,
    countP_htab_insert compat _ _ hagree1 hp1]
  by_cases hany0 : tbl.any (htab_entry_matches compat ⟨null_tree, e, deps, hsh⟩) = true
  · rw [if_pos hany0]
    rw [List.any_eq_true] at hany0
    obtain ⟨a, hmem, hpa⟩ := hany0
    have hpos : 0 < tbl.countP (htab_entry_matches compat ⟨null_tree, e, deps, hsh⟩) :=
      List.countP_pos.mpr ⟨a, hmem, hpa⟩
    omega
  · have hany02 : tbl.any (htab_entry_matches compat ⟨null_tree, e, deps, hsh⟩) = false := by
      simpa using hany0
    rw [if_neg (by simp [hany02])]
    have hz : tbl.countP (htab_entry_matches compat ⟨null_tree, e, deps, hsh⟩) = 0 := by
      rw [List.countP_eq_zero]
      intro a hmem hpa
      rw [List.any_eq_true] at hany0
      exact hany0 ⟨a, hmem, hpa⟩
    omega

/-- The state after manually adding handle 90 for `a_1 + b_1`. -/
def s_add1 : VNState :=
  ⟨some [⟨handle_h1, plus_ab, [], hash_plus_ab⟩], [(20, handle_h1)], 0⟩

/-- The state after overwriting that entry with handle 91. -/
def s_add2 : VNState :=
  ⟨some [⟨handle_h2, plus_ab, [], hash_plus_ab⟩],
   [(20, handle_h2), (20, handle_h1)], 0⟩

/-- Witness for C4: two adds for `a_1 + b_1` with the same empty
dependency set; the lookup answers the second handle and the table holds
one entry. -/
theorem claim_C4_witness :
    (is_gimple_min_invariant plus_ab = false ∧
     vn_compute plus_ab 0 [] = some hash_plus_ab ∧
     active0.value_table = some [] ∧
     List.countP (htab_entry_matches compat0 ⟨null_tree, plus_ab, [], hash_plus_ab⟩)
       [] ≤ 1 ∧
     vn_add compat0 plus_ab handle_h1 [] active0 = some s_add1 ∧
     vn_add compat0 plus_ab handle_h2 [] s_add1 = some s_add2) ∧
    (vn_lookup compat0 plus_ab [] s_add2 = some (some handle_h2) ∧
     ∃ tbl2, s_add2.value_table = some tbl2 ∧
       tbl2.countP (htab_entry_matches compat0
         ⟨null_tree, plus_ab, [], hash_plus_ab⟩) = 1) :=
  ⟨⟨by decide, by decide, by decide, by decide, by decide, by decide⟩,
   claim_C4_add_replace_semantics compat0 plus_ab handle_h1 handle_h2 []
     active0 s_add1 s_add2 hash_plus_ab [] (by decide) (by decide) (by decide)
     (by decide) (by decide) (by decide)⟩

/-- The process state when the 32-bit id counter has reached its
maximal value 2^32 - 1 (as after 2^32 - 1 handle creations). -/
def wrapState : VNState := ⟨none, [], 4294967295⟩

/-- Counterexample to claim C5: the id generator is a 32-bit static
unsigned int (tree-vn.c:66) and wraps.  With the counter at 2^32 - 1, a
creation yields id 4294967295 and wraps the counter to 0, so the next
creation (even with no operations in between, mirroring the claim's
run-of-operations form) yields id 0: not strictly greater, and an id
already issued at the very start of the generator's life. -/
theorem claim_C5_counterexample :
    runOps compat0 [] (make_value_handle 7 wrapState).2 =
      some (make_value_handle 7 wrapState).2 ∧
    ((make_value_handle 7 wrapState).1).data = 4294967295 ∧
    ((make_value_handle 7 ((make_value_handle 7 wrapState).2)).1).data = 0 ∧
    ¬ (((make_value_handle 7 wrapState).1).data <
       ((make_value_handle 7 ((make_value_handle 7 wrapState).2)).1).data) := by
  decide

/-- Claim C5 as amended: ids strictly increase across successive handle
creations as long as the 32-bit counter does not wrap in the window: if
a handle is created and then at most `ops.length` further operations run
(each creating at most one handle), with the whole window staying below
2^32, a handle created afterwards carries a strictly greater id; within
such a window no id is reused.  After 2^32 creations the static counter
wraps and ids repeat. -/
theorem claim_C5_amended_monotonic_ids
    (compat : Nat → Nat → Bool) (ty1 ty2 : Nat) (ops : List Op)
    (s s2 : VNState)
    (hbound : s.nextId + 1 + ops.length < 4294967296)
    (hrun : runOps compat ops (make_value_handle ty1 s).2 = some s2) :
    ((make_value_handle ty1 s).1).data < ((make_value_handle ty2 s2).1).data := by
  obtain ⟨k, hk, hmod⟩ := runOps_nextId_evolve hrun
  simp only [make_value_handle, Tree.data] at hmod ⊢
  omega

/-- The state reached by the witness run for the amended C5. -/
def s_c5 : VNState :=
  ⟨some [⟨handle1, plus_ab, [], hash_plus_ab⟩],
   [(20, handle1), (20, handle1)], 2⟩

/-- Witness for the amended C5: a handle made at the counter's start,
then a short session that allocates one more handle, far from the wrap;
a handle made afterwards has a greater id. -/
theorem claim_C5_amended_witness :
    (initial_state.nextId + 1 +
        ([Op.opInit, Op.opLookupOrAdd plus_ab []] : List Op).length <
      4294967296 ∧
     runOps compat0 [Op.opInit, Op.opLookupOrAdd plus_ab []]
       (make_value_handle 7 initial_state).2 = some s_c5) ∧
    ((make_value_handle 7 initial_state).1).data <
      ((make_value_handle 7 s_c5).1).data :=
  ⟨⟨by decide, by decide⟩,
   claim_C5_amended_monotonic_ids compat0 7 7
     [Op.opInit, Op.opLookupOrAdd plus_ab []] initial_state s_c5
     (by decide) (by decide)⟩

/-- A successful `vn_lookup_or_add` whose lookup hit returns the found
handle and changes nothing but the node associations. -/
theorem vn_lookup_or_add_hit_inv {compat : Nat → Nat → Bool} {e : Tree}
    {vu : List Tree} {s s' : VNState} {v v' : Tree}
    (hl : vn_lookup compat e vu s = some (some v))
    (h : vn_lookup_or_add compat e vu s = some (v', s')) :
    v' = v ∧ s'.value_table = s.value_table ∧ s'.nextId = s.nextId := by
  rw [vn_lookup_or_add_hit hl] at h
  cases hs : set_value_handle e v s with
  | none =>
    rw [hs] at h
    simp at h
  | some s2 =>
    rw [hs] at h
    simp only [Option.some.injEq, Prod.mk.injEq] at h
    obtain ⟨hv, hst⟩ := h
    subst hst
    exact ⟨hv.symm, (set_value_handle_frame hs).1, (set_value_handle_frame hs).2⟩

/-- Claim C3: two structurally identical non-constant expressions whose
memory-dependency sets differ — different length or some position with
non-equal tokens, i.e. `vuses_equal` is false — are assigned different
value handles by `vn_lookup_or_add` (both keys being new to the table,
so that the calls are the ones assigning the handles). -/
theorem claim_C3_memory_sensitivity
    (compat : Nat → Nat → Bool) (e1 e2 : Tree) (vu1 vu2 : List Tree)
    (s s1 s2 : VNState) (v1 v2 : Tree)
    (hee : expressions_equal_p compat e1 e2 = true)
    (hvv : vuses_equal compat vu1 vu2 = false)
    (hm1 : vn_lookup compat e1 vu1 s = some none)
    (hm2 : vn_lookup compat e2 vu2 s = some none)
    (h1 : vn_lookup_or_add compat e1 vu1 s = some (v1, s1))
    (h2 : vn_lookup_or_add compat e2 vu2 s1 = some (v2, s2)) :
    v1 ≠ v2 := by
  obtain ⟨hnc1, hsh1, tbl, hcomp1, htbl, hfind1⟩ := vn_lookup_absent_inv hm1
  obtain ⟨hnc2, hsh2, tblb, hcomp2, htblb, hfind2⟩ := vn_lookup_absent_inv hm2
  rw [htbl] at htblb
  injection htblb with htb
  subst htb
  obtain ⟨hv1, hsh1b, tblc, hcomp1b, htblc, hs1tbl, hs1nid⟩ :=
    vn_lookup_or_add_miss_inv hm1 h1
  rw [hcomp1] at hcomp1b
  injection hcomp1b with hhb
  subst hhb
  rw [htbl] at htblc
  injection htblc with htc
  subst htc
  have hmatches_none : ∀ q ∈ tbl,
      htab_entry_matches compat ⟨v1, e1, vu1, hsh1⟩ q = false := by
    intro q hq
    unfold htab_find at hfind1
    have hnone := List.find?_eq_none.mp hfind1 q hq
    simpa using hnone
  have hins : htab_insert compat tbl ⟨v1, e1, vu1, hsh1⟩ =
      tbl ++ [⟨v1, e1, vu1, hsh1⟩] :=
    htab_insert_eq_append compat _ tbl hmatches_none
  have hp1P2 : htab_entry_matches compat ⟨null_tree, e2, vu2, hsh2⟩
      ⟨v1, e1, vu1, hsh1⟩ = false := by
    unfold htab_entry_matches val_expr_pair_expr_eq
    simp [hvv]
  have hlook2 : vn_lookup compat e2 vu2 s1 = some none := by
    rw [vn_lookup_nonconst hnc2 hcomp2 hs1tbl]
    unfold htab_find
    rw [hins]
    unfold htab_find at hfind2
    rw [find?_append_of_none hfind2]
    rw [List.find?_cons_of_neg _ (by simp [hp1P2])]
    rfl
  obtain ⟨hv2, _, _, _, _, _, _⟩ := vn_lookup_or_add_miss_inv hlook2 h2
  rw [hv1, hv2, hs1nid]
  intro heq
  injection heq with hn
  omega

/-- The hash of `a_1 + b_1` with the virtual use `mem1`. -/
def hash_pm1 : Nat := hash_operands [mem1] (iterative_hash_expr plus_ab 0)

/-- The hash of the copy of `a_1 + b_1` with the virtual use `mem2`. -/
def hash_pm2 : Nat := hash_operands [mem2] (iterative_hash_expr plus_ab_copy 0)

/-- The state after `vn_lookup_or_add` of `a_1 + b_1` under `mem1`. -/
def s_c3_1 : VNState :=
  ⟨some [⟨handle0, plus_ab, [mem1], hash_pm1⟩],
   [(20, handle0), (20, handle0)], 1⟩

/-- The state after then numbering the copy of `a_1 + b_1` under `mem2`. -/
def s_c3_2 : VNState :=
  ⟨some [⟨handle0, plus_ab, [mem1], hash_pm1⟩,
         ⟨handle1, plus_ab_copy, [mem2], hash_pm2⟩],
   [(21, handle1), (21, handle1), (20, handle0), (20, handle0)], 2⟩

/-- Witness for C3: the same addition under two different memory tokens
receives two different handles (ids 0 and 1). -/
theorem claim_C3_witness :
    (expressions_equal_p compat0 plus_ab plus_ab_copy = true ∧
     vuses_equal compat0 [mem1] [mem2] = false ∧
     vn_lookup compat0 plus_ab [mem1] active0 = some none ∧
     vn_lookup compat0 plus_ab_copy [mem2] active0 = some none ∧
     vn_lookup_or_add compat0 plus_ab [mem1] active0 = some (handle0, s_c3_1) ∧
     vn_lookup_or_add compat0 plus_ab_copy [mem2] s_c3_1 = some (handle1, s_c3_2)) ∧
    handle0 ≠ handle1 :=
  ⟨⟨by decide, by decide, by decide, by decide, by decide, by decide⟩,
   claim_C3_memory_sensitivity compat0 plus_ab plus_ab_copy [mem1] [mem2]
     active0 s_c3_1 s_c3_2 handle0 handle1 (by decide) (by decide) (by decide)
     (by decide) (by decide) (by decide)⟩

/-- Counterexample to claim C1: the claim promises a reference-identical
handle for every pair of structurally-equal expressions with equal
memory-dependency sets, but two distinct node instances of the constant 5
are structurally equal, and repeated `vn_lookup_or_add` calls on them (the
state is unchanged between the calls) return the two distinct nodes
themselves, which are not the identical handle. -/
theorem claim_C1_counterexample :
    expressions_equal_p compat0 const_five const_five_copy = true ∧
    vuses_equal compat0 [] [] = true ∧
    vn_lookup_or_add compat0 const_five [] active0 = some (const_five, active0) ∧
    vn_lookup_or_add compat0 const_five_copy [] active0 =
      some (const_five_copy, active0) ∧
    const_five ≠ const_five_copy := by decide

/-- Claim C1 as amended: restricted to non-constant expressions.  For a
symmetric and transitive type-compatibility oracle, two structurally
equal non-constant expressions presented with pairwise-equal
memory-dependency sets receive the identical value handle from
consecutive `vn_lookup_or_add` calls in one session. -/
theorem claim_C1_amended_determinism
    (compat : Nat → Nat → Bool) (hsym : CompatSym compat)
    (htrans : CompatTrans compat)
    (e1 e2 : Tree) (vu1 vu2 : List Tree) (s s1 s2 : VNState) (v1 v2 : Tree)
    (hnc1 : is_gimple_min_invariant e1 = false)
    (hee : expressions_equal_p compat e1 e2 = true)
    (hvv : vuses_equal compat vu1 vu2 = true)
    (h1 : vn_lookup_or_add compat e1 vu1 s = some (v1, s1))
    (h2 : vn_lookup_or_add compat e2 vu2 s1 = some (v2, s2)) :
    v1 = v2 := by
  have hnc2 : is_gimple_min_invariant e2 = false := by
    rw [← is_gimple_min_invariant_congr hee]
    exact hnc1
  have hsa2 : e2.stmtAnn = false := by
    by_contra hcc
    have hsa : e2.stmtAnn = true := by simpa using hcc
    rw [vn_lookup_or_add_none (vn_lookup_stmtAnn_none vu2 s1 hnc2 hsa)] at h2
    exact absurd h2 (by simp)
  cases hl1 : vn_lookup compat e1 vu1 s with
  | none =>
    rw [vn_lookup_or_add_none hl1] at h1
    exact absurd h1 (by simp)
  | some r =>
    cases r with
    | some v0 =>
      obtain ⟨hsh1, tbl, q, hcomp1, htbl, hfindq, hqv⟩ :=
        vn_lookup_found_inv hnc1 hl1
      obtain ⟨hv1, hs1tbl, _⟩ := vn_lookup_or_add_hit_inv hl1 h1
      have hcomp2 : vn_compute e2 0 vu2 = some hsh1 := by
        rw [← vn_compute_congr hee hvv (stmtAnn_false_of_compute hcomp1) hsa2]
        exact hcomp1
      have hPeq : ∀ q', htab_entry_matches compat ⟨null_tree, e1, vu1, hsh1⟩ q' =
          htab_entry_matches compat ⟨null_tree, e2, vu2, hsh1⟩ q' :=
        htab_entry_matches_congr hsym htrans rfl hee hvv
      have hlook2 : vn_lookup compat e2 vu2 s1 = some (some q.v) := by
        rw [vn_lookup_nonconst hnc2 hcomp2 (by rw [hs1tbl]; exact htbl)]
        unfold htab_find
        rw [← find?_ext hPeq tbl]
        unfold htab_find at hfindq
        rw [hfindq]
      have hv2 := (vn_lookup_or_add_hit_inv hlook2 h2).1
      rw [hv1, hv2, hqv]
    | none =>
      obtain ⟨hnc1b, hsh1, tbl, hcomp1, htbl, hfind1⟩ := vn_lookup_absent_inv hl1
      obtain ⟨hv1, hsh1b, tblc, hcomp1b, htblc, hs1tbl, hs1nid⟩ :=
        vn_lookup_or_add_miss_inv hl1 h1
      rw [hcomp1] at hcomp1b
      injection hcomp1b with hhb
      subst hhb
      rw [htbl] at htblc
      injection htblc with htc
      subst htc
      have hcomp2 : vn_compute e2 0 vu2 = some hsh1 := by
        rw [← vn_compute_congr hee hvv (stmtAnn_false_of_compute hcomp1) hsa2]
        exact hcomp1
      have hPeq : ∀ q', htab_entry_matches compat ⟨null_tree, e1, vu1, hsh1⟩ q' =
          htab_entry_matches compat ⟨null_tree, e2, vu2, hsh1⟩ q' :=
        htab_entry_matches_congr hsym htrans rfl hee hvv
      have hmatches_none : ∀ q ∈ tbl,
          htab_entry_matches compat ⟨v1, e1, vu1, hsh1⟩ q = false := by
        intro q hq
        unfold htab_find at hfind1
        have hnone := List.find?_eq_none.mp hfind1 q hq
        simpa using hnone
      have hins : htab_insert compat tbl ⟨v1, e1, vu1, hsh1⟩ =
          tbl ++ [⟨v1, e1, vu1, hsh1⟩] :=
        htab_insert_eq_append compat _ tbl hmatches_none
      have hfind2tbl : List.find?
          (htab_entry_matches compat ⟨null_tree, e2, vu2, hsh1⟩) tbl = none := by
        rw [← find?_ext hPeq tbl]
        unfold htab_find at hfind1
        exact hfind1
      have hp1P2 : htab_entry_matches compat ⟨null_tree, e2, vu2, hsh1⟩
          ⟨v1, e1, vu1, hsh1⟩ = true := by
        unfold htab_entry_matches val_expr_pair_expr_eq
        simp [hee, hvv]
      have hlook2 : vn_lookup compat e2 vu2 s1 = some (some v1) := by
        rw [vn_lookup_nonconst hnc2 hcomp2 hs1tbl]
        unfold htab_find
        rw [hins, find?_append_of_none hfind2tbl,
          List.find?_cons_of_pos _ hp1P2]
      have hv2 := (vn_lookup_or_add_hit_inv hlook2 h2).1
      rw [hv2]

/-- The state after numbering both copies of `a_1 + b_1` with no virtual
uses: the second call hits the first call's table entry and only
refreshes the copy's association. -/
def s_after_second : VNState :=
  ⟨some [⟨handle0, plus_ab, [], hash_plus_ab⟩],
   [(21, handle0), (20, handle0), (20, handle0)], 1⟩

/-- Witness for the amended C1: two distinct instances of `a_1 + b_1`
with the empty dependency set resolve to the identical handle (id 0). -/
theorem claim_C1_amended_witness :
    (CompatSym compat0 ∧ CompatTrans compat0 ∧
     is_gimple_min_invariant plus_ab = false ∧
     expressions_equal_p compat0 plus_ab plus_ab_copy = true ∧
     vuses_equal compat0 [] [] = true ∧
     vn_lookup_or_add compat0 plus_ab [] active0 = some (handle0, s_after_first) ∧
     vn_lookup_or_add compat0 plus_ab_copy [] s_after_first =
       some (handle0, s_after_second)) ∧
    handle0 = handle0 :=
  ⟨⟨fun x y h => absurd h (by simp [compat0]),
    fun x y z h _ => absurd h (by simp [compat0]),
    by decide, by decide, by decide, by decide, by decide⟩,
   claim_C1_amended_determinism compat0
     (fun x y h => absurd h (by simp [compat0]))
     (fun x y z h _ => absurd h (by simp [compat0]))
     plus_ab plus_ab_copy [] [] active0 s_after_first s_after_second
     handle0 handle0 (by decide) (by decide) (by decide) (by decide) (by decide)⟩

end VN
